import Mathlib

/-!
Shallow embedding of the mini-discord message store (src/src/db.ts,
src/src/index.ts, src/dist/validators.js) and proofs about its
validators, dedup guard, repository reads and keyset pagination.

TimeUuid values are embedded as naturals preserving the timeuuid total
order; the `fromString` decoding of a cursor is the identity of this
embedding.  JS strings are Lean `String`s, JS `undefined` is `none`.
-/

namespace MiniDiscord

/-! ### JavaScript string primitives used by the validators -/

/-- Whitespace characters removed by the JS `trim` and skipped by `parseInt`. -/
def isJsWhitespace (c : Char) : Bool :=
  c == ' ' || c == '\t' || c == '\n' || c == '\r' || c == '\x0B' || c == '\x0C'

/-- JS `String.prototype.trim`. -/
def jsTrim (s : String) : String :=
  ⟨((s.data.dropWhile isJsWhitespace).reverse.dropWhile isJsWhitespace).reverse⟩

/-- JS truthiness of a string-or-undefined value: `undefined` and `""` are falsy. -/
def truthy : Option String → Bool
  | none => false
  | some s => s != ""

/-- JS optional chaining `x?.trim()`. -/
def optTrim : Option String → Option String
  | none => none
  | some s => some (jsTrim s)

/-- JS `String.prototype.toLowerCase` (ASCII, as exercised by the source). -/
def jsToLower (s : String) : String := ⟨s.data.map Char.toLower⟩

/-- JS `String.prototype.toUpperCase` (ASCII, as exercised by the source). -/
def jsToUpper (s : String) : String := ⟨s.data.map Char.toUpper⟩

/-- A single-quote character, used in warning strings. -/
def sq : String := ⟨[Char.ofNat 39]⟩

/-- Numeric value of a list of decimal digits. -/
def digitsToNat (ds : List Char) : Nat :=
  ds.foldl (fun acc c => acc * 10 + (c.toNat - 48)) 0

/-- JS `parseInt(s)` for decimal inputs: skip leading whitespace, optional
sign, then the longest digit prefix; `none` models `NaN` (no digit found).
The `0x` hexadecimal prefix of `parseInt` is not exercised by this system
and is not modelled. -/
def parseIntJs (s : String) : Option Int :=
  let cs := s.data.dropWhile isJsWhitespace
  match cs with
  | [] => none
  | c :: rest =>
    if c == '-' then
      let ds := rest.takeWhile Char.isDigit
      if ds.isEmpty then none else some (-(digitsToNat ds : Int))
    else if c == '+' then
      let ds := rest.takeWhile Char.isDigit
      if ds.isEmpty then none else some ((digitsToNat ds : Int))
    else
      let ds := cs.takeWhile Char.isDigit
      if ds.isEmpty then none else some ((digitsToNat ds : Int))

/-! ### Consistency resolver (src/dist/validators.js, validateConsistency) -/

/-- The name-to-code table exported by the storage driver
(`types.consistencies` of the cassandra driver).  Keys are camelCase; a
missing key models the JS value `undefined`. -/
def consistencies (key : String) : Option Nat :=
  if key == "any" then some 0
  else if key == "one" then some 1
  else if key == "two" then some 2
  else if key == "three" then some 3
  else if key == "quorum" then some 4
  else if key == "all" then some 5
  else if key == "localQuorum" then some 6
  else if key == "eachQuorum" then some 7
  else if key == "serial" then some 8
  else if key == "localSerial" then some 9
  else if key == "localOne" then some 10
  else none

/-- validators.js line 7: the whitelist of caller-supplied tokens. -/
def ALLOWED_CONSISTENCIES : List String :=
  ["ANY", "ONE", "TWO", "THREE", "QUORUM", "ALL", "LOCAL_ONE", "LOCAL_QUORUM"]

structure ConsistencyResult where
  value : Option Nat
  warning : Option String
deriving Repr, DecidableEq

/-- `process.env.DEFAULT_WRITE_CONSISTENCY || 'ONE'`. -/
def defaultWriteName (envDefaultWrite : Option String) : String :=
  if truthy envDefaultWrite then envDefaultWrite.getD "" else "ONE"

/-- validators.js, `validateConsistency(consistency)`.  `envDefaultWrite`
models `process.env.DEFAULT_WRITE_CONSISTENCY`. -/
def validateConsistency (consistency : Option String) (envDefaultWrite : Option String) :
    ConsistencyResult :=
  let defaultConsistency := defaultWriteName envDefaultWrite
  if !(truthy consistency) then
    { value := consistencies (jsToLower defaultConsistency), warning := none }
  else
    let c := consistency.getD ""
    if !(ALLOWED_CONSISTENCIES.contains (jsToUpper c)) then
      { value := consistencies (jsToLower defaultConsistency),
        warning := some ("Invalid consistency level " ++ sq ++ c ++ sq ++
          ", using default " ++ sq ++ defaultConsistency ++ sq) }
    else
      { value := consistencies (jsToLower c), warning := none }

/-! ### Request validators (src/dist/validators.js) -/

/-- Body of `POST /api/messages`; absent fields are `none`. -/
structure PostBody where
  channel_id : Option String
  user_id : Option String
  content : Option String
  consistency : Option String
  client_msg_id : Option String
deriving Repr, DecidableEq

/-- The `data` record built by `validatePostMessage` on success. -/
structure PostData where
  channel_id : String
  user_id : String
  content : String
  consistency : Option String
  client_msg_id : Option String
deriving Repr, DecidableEq

inductive PostValidation where
  | invalid (errors : List String)
  | ok (data : PostData)
deriving Repr, DecidableEq

/-- validators.js, `validatePostMessage(body)`: length bounds are checked on
the untrimmed values, the `data` record holds the trimmed values. -/
def validatePostMessage (body : PostBody) : PostValidation :=
  let channelErrors :=
    if !(truthy body.channel_id) then ["channel_id is required and must be a string"]
    else if (body.channel_id.getD "").length < 1 || (body.channel_id.getD "").length > 100 then
      ["channel_id must be between 1 and 100 characters"]
    else []
  let userErrors :=
    if !(truthy body.user_id) then ["user_id is required and must be a string"]
    else if (body.user_id.getD "").length < 1 || (body.user_id.getD "").length > 100 then
      ["user_id must be between 1 and 100 characters"]
    else []
  let contentErrors :=
    if !(truthy body.content) then ["content is required and must be a string"]
    else if (body.content.getD "").length < 1 || (body.content.getD "").length > 2000 then
      ["content must be between 1 and 2000 characters"]
    else []
  let clientErrors :=
    if truthy body.client_msg_id &&
        ((body.client_msg_id.getD "").length < 1 || (body.client_msg_id.getD "").length > 100) then
      ["client_msg_id must be a string between 1 and 100 characters"]
    else []
  let errors := channelErrors ++ userErrors ++ contentErrors ++ clientErrors
  if errors.isEmpty then
    PostValidation.ok
      { channel_id := jsTrim (body.channel_id.getD "")
        user_id := jsTrim (body.user_id.getD "")
        content := jsTrim (body.content.getD "")
        consistency := optTrim body.consistency
        client_msg_id := optTrim body.client_msg_id }
  else PostValidation.invalid errors

/-- Query string of `GET /api/channels/:channel_id/messages`. -/
structure GetQuery where
  limit : Option String
  before : Option String
  after : Option String
  consistency : Option String
deriving Repr, DecidableEq

/-- The `data` record built by `validateGetMessages` on success. -/
structure GetData where
  limit : Int
  before : Option String
  after : Option String
  consistency : Option String
deriving Repr, DecidableEq

inductive GetValidation where
  | invalid (errors : List String)
  | ok (data : GetData)
deriving Repr, DecidableEq

/-- True when `c` is in the inclusive character range `lo..hi`. -/
def charBetween (lo hi c : Char) : Bool :=
  decide (lo ≤ c) && decide (c ≤ hi)

/-- validators.js line 76: the case-insensitive timeuuid syntax check
`/^[0-9a-f]\x7b8\x7d-[0-9a-f]\x7b4\x7d-[1-5][0-9a-f]\x7b3\x7d-[89ab][0-9a-f]\x7b3\x7d-[0-9a-f]\x7b12\x7d$/i`. -/
def uuidRegexTest (s : String) : Bool :=
  let cs := s.data
  let hexAt := fun (i : Nat) =>
    let c := cs.getD i ' '
    c.isDigit || charBetween 'a' 'f' c || charBetween 'A' 'F' c
  cs.length == 36 &&
  (List.range 36).all (fun i =>
    let c := cs.getD i ' '
    if i == 8 || i == 13 || i == 18 || i == 23 then c == '-'
    else if i == 14 then charBetween '1' '5' c
    else if i == 19 then
      c == '8' || c == '9' || c == 'a' || c == 'b' || c == 'A' || c == 'B'
    else hexAt i)

/-- validators.js, `validateGetMessages(query)`. -/
def validateGetMessages (query : GetQuery) : GetValidation :=
  let parsedLimit : Option Int :=
    if truthy query.limit then parseIntJs (query.limit.getD "") else some 20
  let limitErrors :=
    match parsedLimit with
    | none => ["limit must be a number between 1 and 100"]
    | some n => if n < 1 || n > 100 then ["limit must be a number between 1 and 100"] else []
  let bothErrors :=
    if truthy query.before && truthy query.after then
      ["Cannot use both before and after parameters simultaneously"]
    else []
  let beforeErrors :=
    if truthy query.before && !(uuidRegexTest (query.before.getD "")) then
      ["before parameter must be a valid UUID"]
    else []
  let afterErrors :=
    if truthy query.after && !(uuidRegexTest (query.after.getD "")) then
      ["after parameter must be a valid UUID"]
    else []
  let errors := limitErrors ++ bothErrors ++ beforeErrors ++ afterErrors
  if errors.isEmpty then
    GetValidation.ok
      { limit := parsedLimit.getD 20
        before := query.before
        after := query.after
        consistency := query.consistency }
  else GetValidation.invalid errors

/-! ### Data model and storage (src/src/db.ts) -/

/-- A row of the `messages` table (src/src/types.ts, `Message`).
`message_id` is the timeuuid embedded as a natural preserving its order;
`created_at` is the timestamp stored alongside. -/
structure Message where
  channel_id : String
  message_id : Nat
  user_id : String
  content : String
  created_at : Nat
deriving Repr, DecidableEq

/-- db.ts `toTimestamp`: the date recovered from a timeuuid.  In this
embedding the id rank itself stands for its recovered date; no claim
about the repository depends on the date value. -/
def toTimestamp (messageId : Nat) : Nat := messageId

/-- The storage state: the `messages` table rows and the
`message_dedupe` table keys `(channel_id, client_msg_id)`. -/
structure DbState where
  messages : List Message
  dedupe : List (String × String)
deriving Repr, DecidableEq

/-- db.ts `checkDedupe`: the conditional `INSERT ... IF NOT EXISTS` on
`message_dedupe`; returns whether the LWT was applied, plus the updated
storage state. -/
def checkDedupe (st : DbState) (channelId clientMsgId : String) : Bool × DbState :=
  if (channelId, clientMsgId) ∈ st.dedupe then (false, st)
  else (true, { st with dedupe := st.dedupe ++ [(channelId, clientMsgId)] })

/-- db.ts `insertMessage`: the plain `INSERT` into `messages`. -/
def insertMessage (st : DbState) (m : Message) : DbState :=
  { st with messages := st.messages ++ [m] }

/-- Insert a row into a list kept in descending `message_id` order. -/
def insertDesc (m : Message) : List Message → List Message
  | [] => [m]
  | x :: xs =>
    if x.message_id ≤ m.message_id then m :: x :: xs else x :: insertDesc m xs

/-- The clustering order of a `messages` partition: rows sorted by
`message_id` descending (`CLUSTERING ORDER BY (message_id DESC)`). -/
def clusteringDesc (rows : List Message) : List Message :=
  rows.foldr insertDesc []

/-- db.ts `getMessages(channelId, limit, before, after, consistency)`:
a partition-scoped read in clustering (descending) order.  `before` wins
over `after` as in the source (`if (before) ... else if (after) ...`);
the cursor bound is strict and `LIMIT` truncates in clustering order. -/
def getMessages (db : List Message) (channelId : String) (limit : Nat)
    (before after : Option Nat) : List Message :=
  let partition := clusteringDesc (db.filter (fun m => m.channel_id == channelId))
  match before with
  | some b => (partition.filter (fun m => decide (m.message_id < b))).take limit
  | none =>
    match after with
    | some a => (partition.filter (fun m => decide (a < m.message_id))).take limit
    | none => partition.take limit

/-! ### HTTP handlers (src/src/index.ts) -/

/-- The JSON body of a `POST /api/messages` response, with every field the
handler can ever set (src/src/types.ts `PostMessageResponse` plus the
dynamically attached `warning`).  The handler never sets `created_at`. -/
structure PostResponse where
  ok : Bool
  message_id : Option Nat
  created_at : Option Nat
  deduped : Option Bool
  warning : Option String
  errorCode : Option String
deriving Repr, DecidableEq

/-- index.ts, the `POST /api/messages` handler.  `envWrite` models
`process.env.DEFAULT_WRITE_CONSISTENCY`; `newId` is the id the
Identifier Generator yields for this request. -/
def postMessageHandler (body : PostBody) (envWrite : Option String) (newId : Nat)
    (st : DbState) : PostResponse × DbState :=
  match validatePostMessage body with
  | PostValidation.invalid _ =>
    ({ ok := false, message_id := none, created_at := none, deduped := none,
       warning := none, errorCode := some "BAD_REQUEST" }, st)
  | PostValidation.ok d =>
    let cres := validateConsistency d.consistency envWrite
    let accept := fun (st1 : DbState) =>
      ({ ok := true, message_id := some newId, created_at := none, deduped := none,
         warning := cres.warning, errorCode := none },
       insertMessage st1
         { channel_id := d.channel_id, message_id := newId, user_id := d.user_id,
           content := d.content, created_at := toTimestamp newId })
    if truthy d.client_msg_id then
      let r := checkDedupe st d.channel_id (d.client_msg_id.getD "")
      if r.1 then accept r.2
      else
        ({ ok := true, message_id := none, created_at := none, deduped := some true,
           warning := none, errorCode := none }, r.2)
    else accept st

/-- The storage read issued by the `GET` handler, with the arguments it
hands to db.ts `getMessages` (cursors still as raw strings, the
consistency already resolved). -/
structure StorageRead where
  channel_id : String
  limit : Int
  before : Option String
  after : Option String
  consistency : Option Nat
deriving Repr, DecidableEq

/-- Outcome of the `GET` handler up to the storage boundary: either an
error response produced before any storage call, or the storage read it
performs together with the warning attached to the response. -/
inductive GetHandlerResult where
  | badRequest (message : String) (errors : List String)
  | success (call : StorageRead) (warning : Option String)
deriving Repr, DecidableEq

/-- Whether the handler reached storage. -/
def isSuccess : GetHandlerResult → Bool
  | GetHandlerResult.badRequest _ _ => false
  | GetHandlerResult.success _ _ => true

/-- index.ts, the `GET /api/channels/:channel_id/messages` handler up to
the storage call.  `envRead` and `envWrite` model
`process.env.DEFAULT_READ_CONSISTENCY` and `DEFAULT_WRITE_CONSISTENCY`. -/
def getMessagesHandler (channelId : String) (query : GetQuery)
    (envRead envWrite : Option String) : GetHandlerResult :=
  if channelId.length < 1 || channelId.length > 100 then
    GetHandlerResult.badRequest "Invalid channel_id" []
  else
    match validateGetMessages query with
    | GetValidation.invalid errors =>
      GetHandlerResult.badRequest "Invalid query parameters" errors
    | GetValidation.ok d =>
      let cres := validateConsistency
        (if truthy d.consistency then d.consistency else envRead) envWrite
      GetHandlerResult.success
        { channel_id := channelId, limit := d.limit, before := d.before,
          after := d.after, consistency := cres.value }
        cres.warning

/-! ### Paginator protocol (index.ts response shaping over db.ts reads) -/

/-- `next_before`: the `message_id` of the last (oldest) item of a page,
`null` when the page is empty. -/
def nextBefore (page : List Message) : Option Nat :=
  page.getLast?.map (fun m => m.message_id)

/-- The client-side pagination loop of §4.5: list a page, then pass its
`next_before` as the next call's `before`, until `next_before` is null.
`fuel` bounds the recursion; every theorem supplies enough fuel. -/
def paginate : Nat → List Message → String → Nat → Option Nat → List (List Message)
  | 0, _, _, _, _ => []
  | Nat.succ fuel, db, channelId, limit, cursor =>
    let page := getMessages db channelId limit cursor none
    match nextBefore page with
    | none => []
    | some b => page :: paginate fuel db channelId limit (some b)

/-- Pagination restated over an already-ordered partition; used to relate
`paginate` to list take/drop decompositions. -/
def pageOf (rows : List Message) (limit : Nat) : Option Nat → List Message
  | none => rows.take limit
  | some b => (rows.filter (fun m => decide (m.message_id < b))).take limit

/-- The pagination loop over an already-ordered partition. -/
def paginateRows : Nat → List Message → Nat → Option Nat → List (List Message)
  | 0, _, _, _ => []
  | Nat.succ fuel, rows, limit, cursor =>
    let page := pageOf rows limit cursor
    match nextBefore page with
    | none => []
    | some b => page :: paginateRows fuel rows limit (some b)

/-- A partition in clustering order: `message_id` strictly descending. -/
def DescIds (rows : List Message) : Prop :=
  rows.Pairwise (fun a b => b.message_id < a.message_id)

/-- The `after` read as §4.4 words it: the entries with `message_id > X`
nearest to `X` and ascending toward the present, rendered newest-first.
Stated from the spec for comparison with `getMessages`. -/
def specAfterRead (db : List Message) (channelId : String) (limit : Nat) (a : Nat) :
    List Message :=
  ((((clusteringDesc (db.filter (fun m => m.channel_id == channelId))).reverse.filter
      (fun m => decide (a < m.message_id))).take limit).reverse)

/-! ### Identifier generator -/

/-- Modelled from the spec: src/src/db.ts `nowId` delegates to the driver
library (`types.TimeUuid.now()`), whose implementation is not part of this
repository.  Following §4.1, an id is a `(time, ticks)` pair — a clock
reading plus a monotonic per-instance disambiguator — ordered
lexicographically, with `timestamp` recovering the embedded time.  The
generator state records the last issued pair. -/
structure GenState where
  lastTime : Nat
  lastTicks : Nat
deriving Repr, DecidableEq

/-- Modelled from the spec: the id's total order (§4.1), lexicographic on
the embedded time then the disambiguator. -/
def idLt (a b : Nat × Nat) : Prop :=
  a.1 < b.1 ∨ (a.1 = b.1 ∧ a.2 < b.2)

/-- Modelled from the spec: `timestamp(id)` recovers the embedded time. -/
def idTimestamp (a : Nat × Nat) : Nat := a.1

/-- Modelled from the spec: one `next()` call of the Identifier Generator
given the current clock reading.  A strictly advanced clock starts a fresh
tick sequence; otherwise the per-instance disambiguator increments, so the
new id exceeds every previously issued one even within a clock tick. -/
def nextId (clock : Nat) (s : GenState) : (Nat × Nat) × GenState :=
  if s.lastTime < clock then ((clock, 0), { lastTime := clock, lastTicks := 0 })
  else ((s.lastTime, s.lastTicks + 1), { lastTime := s.lastTime, lastTicks := s.lastTicks + 1 })

/-- Modelled from the spec: the ids issued by sequential `next()` calls
under a sequence of clock readings. -/
def genRun (s : GenState) : List Nat → List (Nat × Nat)
  | [] => []
  | clock :: rest =>
    let r := nextId clock s
    r.1 :: genRun r.2 rest

/-- A concrete two-channel store used to evaluate the pagination theorem. -/
def dbC2 : List Message :=
  [⟨"c", 1, "u", "m1", 1⟩, ⟨"c", 3, "u", "m3", 3⟩, ⟨"d", 9, "v", "x", 9⟩,
   ⟨"c", 2, "u", "m2", 2⟩]

/-- A concrete five-message channel used to evaluate the after-cursor read. -/
def dbC4 : List Message :=
  [⟨"c", 1, "u", "m1", 1⟩, ⟨"c", 2, "u", "m2", 2⟩, ⟨"c", 3, "u", "m3", 3⟩,
   ⟨"c", 4, "u", "m4", 4⟩, ⟨"c", 5, "u", "m5", 5⟩]

/-- A nonempty JS string has positive length. -/
theorem length_pos_of_ne_empty {s : String} (h : s ≠ "") : 1 ≤ s.length := by
  cases s with
  | mk d =>
    cases d with
    | nil => exact absurd rfl h
    | cons a t => simp [String.length]

/-- Trimming an all-whitespace string yields the empty string. -/
theorem jsTrim_all_whitespace {c : String} (h : ∀ ch ∈ c.data, isJsWhitespace ch = true) :
    jsTrim c = "" := by
  have h1 : c.data.dropWhile isJsWhitespace = [] := by
    rw [List.dropWhile_eq_nil_iff]
    exact fun x hx => h x hx
  simp [jsTrim, h1]

/-- Inserting into a descending list is a permutation of consing. -/
theorem insertDesc_perm (m : Message) (l : List Message) : List.Perm (insertDesc m l) (m :: l) := by
  induction l with
  | nil => simp [insertDesc]
  | cons x xs ih =>
    by_cases h : x.message_id ≤ m.message_id
    · simp [insertDesc, h]
    · simp only [insertDesc, if_neg h]
      exact (ih.cons x).trans (List.Perm.swap m x xs)

/-- The clustering view is a permutation of the stored rows. -/
theorem clusteringDesc_perm (l : List Message) : List.Perm (clusteringDesc l) l := by
  induction l with
  | nil => simp [clusteringDesc]
  | cons x xs ih =>
    have : clusteringDesc (x :: xs) = insertDesc x (clusteringDesc xs) := rfl
    rw [this]
    exact (insertDesc_perm x (clusteringDesc xs)).trans (ih.cons x)

/-- Descending insertion preserves the descending invariant. -/
theorem insertDesc_sorted {m : Message} {l : List Message}
    (h : l.Pairwise (fun a b => b.message_id ≤ a.message_id)) :
    (insertDesc m l).Pairwise (fun a b => b.message_id ≤ a.message_id) := by
  induction l with
  | nil => simp [insertDesc]
  | cons x xs ih =>
    rcases List.pairwise_cons.mp h with ⟨hx, hxs⟩
    by_cases hc : x.message_id ≤ m.message_id
    · simp only [insertDesc, if_pos hc]
      refine List.pairwise_cons.mpr ⟨?_, h⟩
      intro y hy
      rcases List.mem_cons.mp hy with rfl | hm
      · exact hc
      · exact (hx y hm).trans hc
    · simp only [insertDesc, if_neg hc]
      refine List.pairwise_cons.mpr ⟨?_, ih hxs⟩
      intro y hy
      rcases List.mem_cons.mp ((insertDesc_perm m xs).mem_iff.mp hy) with rfl | hm
      · omega
      · exact hx y hm

/-- The clustering view is sorted by message_id descending. -/
theorem clusteringDesc_sorted (l : List Message) :
    (clusteringDesc l).Pairwise (fun a b => b.message_id ≤ a.message_id) := by
  induction l with
  | nil => simp [clusteringDesc]
  | cons x xs ih => exact insertDesc_sorted ih

/-- With distinct ids the clustering view is strictly descending. -/
theorem descIds_clusteringDesc {l : List Message}
    (h : (l.map (fun m => m.message_id)).Nodup) : DescIds (clusteringDesc l) := by
  have hperm := clusteringDesc_perm l
  have hnd : ((clusteringDesc l).map (fun m => m.message_id)).Nodup :=
    ((hperm.map (fun m => m.message_id)).symm).nodup h
  have hne : (clusteringDesc l).Pairwise (fun a b => a.message_id ≠ b.message_id) := by
    exact List.pairwise_map.mp hnd
  exact ((clusteringDesc_sorted l).and hne).imp (fun hab => by omega)

/-- Claim C1: the spec states that every recognized token (ANY, ONE, TWO,
THREE, QUORUM, ALL, LOCAL_ONE, LOCAL_QUORUM, in any letter case) resolves to
its mapped Level with no warning and that the resolver always yields a
defined Level.  The code contradicts this for the two LOCAL tokens: the
whitelist accepts them (so no warning is produced), but the driver table is
keyed camelCase (localOne, localQuorum) while the lookup key is the
lowercased token (local_one, local_quorum), so the resolved value is the JS
undefined.  The six other tokens resolve as specified. -/
theorem validateConsistency_localTokens :
    validateConsistency (some "LOCAL_ONE") none = ⟨none, none⟩ ∧
    validateConsistency (some "LOCAL_QUORUM") none = ⟨none, none⟩ ∧
    validateConsistency (some "local_one") (some "QUORUM") = ⟨none, none⟩ ∧
    validateConsistency (some "ANY") none = ⟨some 0, none⟩ ∧
    validateConsistency (some "one") none = ⟨some 1, none⟩ ∧
    validateConsistency (some "Two") none = ⟨some 2, none⟩ ∧
    validateConsistency (some "THREE") none = ⟨some 3, none⟩ ∧
    validateConsistency (some "quorum") none = ⟨some 4, none⟩ ∧
    validateConsistency (some "ALL") none = ⟨some 5, none⟩ ∧
    validateConsistency (some "local_one") none = ⟨none, none⟩ := by decide

/-- Claim C3: when the request carries a client key and the dedup guard
does not apply the conditional insert (accepted = false), the append returns
the deduplicated outcome, creates no message, and leaves the storage state
exactly as it was. -/
theorem postMessage_dedup_no_write (body : PostBody) (envWrite : Option String)
    (newId : Nat) (st : DbState) (d : PostData)
    (hval : validatePostMessage body = PostValidation.ok d)
    (hkey : truthy d.client_msg_id = true)
    (hded : (checkDedupe st d.channel_id (d.client_msg_id.getD "")).1 = false) :
    (postMessageHandler body envWrite newId st).1.deduped = some true ∧
    (postMessageHandler body envWrite newId st).1.message_id = none ∧
    (postMessageHandler body envWrite newId st).2 = st := by
  have hmem : (d.channel_id, d.client_msg_id.getD "") ∈ st.dedupe := by
    by_contra hmem
    simp [checkDedupe, hmem] at hded
  unfold postMessageHandler
  rw [hval]
  simp [hkey, checkDedupe, hmem]

/-- Witness for claim C3 at a concrete duplicated request. -/
theorem postMessage_dedup_no_write_witness :
    (postMessageHandler ⟨some "c1", some "u", some "hello", none, some "k1"⟩ none 7
        ⟨[], [("c1", "k1")]⟩).1.deduped = some true ∧
    (postMessageHandler ⟨some "c1", some "u", some "hello", none, some "k1"⟩ none 7
        ⟨[], [("c1", "k1")]⟩).1.message_id = none ∧
    (postMessageHandler ⟨some "c1", some "u", some "hello", none, some "k1"⟩ none 7
        ⟨[], [("c1", "k1")]⟩).2 = ⟨[], [("c1", "k1")]⟩ :=
  postMessage_dedup_no_write _ none 7 _ ⟨"c1", "u", "hello", none, some "k1"⟩
    (by decide) (by decide) (by decide)

/-- Claim C5 counterexample: a concrete accepted append returns ok with the
new id, yet the response record has no created_at value, contradicting the
claimed Accepted outcome shape that carries both id and created_at. -/
theorem postMessage_accept_missing_created_at :
    (postMessageHandler ⟨some "c1", some "u", some "hello", none, none⟩ none 42 ⟨[], []⟩).1.ok
        = true ∧
    (postMessageHandler ⟨some "c1", some "u", some "hello", none, none⟩ none 42
        ⟨[], []⟩).1.message_id = some 42 ∧
    (postMessageHandler ⟨some "c1", some "u", some "hello", none, none⟩ none 42
        ⟨[], []⟩).1.deduped = none ∧
    (postMessageHandler ⟨some "c1", some "u", some "hello", none, none⟩ none 42
        ⟨[], []⟩).1.created_at = none := by decide

/-- Claim C5 (amended): an accepted append responds ok with the new id
and the resolver warning when present, but no created_at field; the
created_at derived from the id is persisted with the stored row only. -/
theorem postMessage_accept_response (body : PostBody) (envWrite : Option String)
    (newId : Nat) (st : DbState) (d : PostData)
    (hval : validatePostMessage body = PostValidation.ok d)
    (hpath : truthy d.client_msg_id = false ∨
      (checkDedupe st d.channel_id (d.client_msg_id.getD "")).1 = true) :
    (postMessageHandler body envWrite newId st).1 =
      ⟨true, some newId, none, none, (validateConsistency d.consistency envWrite).warning,
        none⟩ ∧
    (postMessageHandler body envWrite newId st).2.messages =
      st.messages ++ [⟨d.channel_id, newId, d.user_id, d.content, toTimestamp newId⟩] := by
  unfold postMessageHandler
  rw [hval]
  rcases hpath with h | h
  · simp [h, insertMessage]
  · by_cases hk : truthy d.client_msg_id
    · have hmem : (d.channel_id, d.client_msg_id.getD "") ∉ st.dedupe := by
        intro hmem
        simp [checkDedupe, hmem] at h
      simp [hk, checkDedupe, hmem, insertMessage]
    · simp [hk, insertMessage]

/-- Witness for the amended claim C5 at a concrete accepted request. -/
theorem postMessage_accept_response_witness :
    (postMessageHandler ⟨some "c1", some "u", some "hi", some "BOGUS", none⟩ none 42
        ⟨[], []⟩).1 =
      ⟨true, some 42, none, none,
        (validateConsistency (some "BOGUS") none).warning, none⟩ ∧
    (postMessageHandler ⟨some "c1", some "u", some "hi", some "BOGUS", none⟩ none 42
        ⟨[], []⟩).2.messages = [] ++ [⟨"c1", 42, "u", "hi", toTimestamp 42⟩] :=
  postMessage_accept_response _ none 42 ⟨[], []⟩ ⟨"c1", "u", "hi", some "BOGUS", none⟩
    (by decide) (Or.inl (by decide))

/-- Claim C10: a deduplicated append response never carries a warning,
even when the supplied consistency token was unrecognized; the consistency
warning is only attached on the accepted path. -/
theorem postMessage_dedup_never_warns (body : PostBody) (envWrite : Option String)
    (newId : Nat) (st : DbState)
    (h : (postMessageHandler body envWrite newId st).1.deduped = some true) :
    (postMessageHandler body envWrite newId st).1.warning = none := by
  revert h
  unfold postMessageHandler
  cases validatePostMessage body with
  | invalid errs =>
    intro h
    simp at h
  | ok d =>
    by_cases hk : truthy d.client_msg_id = true
    · by_cases hr : (checkDedupe st d.channel_id (d.client_msg_id.getD "")).1 = true
      · intro h
        simp [hk, hr] at h
      · intro h
        simp [hk, hr]
    · intro h
      simp [hk] at h

/-- Witness for claim C10: a duplicated request with a bogus consistency
token still answers without a warning. -/
theorem postMessage_dedup_never_warns_witness :
    (postMessageHandler ⟨some "c1", some "u", some "hi", some "BOGUS", some "k"⟩ none 7
        ⟨[], [("c1", "k")]⟩).1.warning = none :=
  postMessage_dedup_never_warns _ none 7 _ (by decide)

/-- Claim C9: validatePostMessage checks the 1..100 and 1..2000 length
bounds on the untrimmed values and only then trims, so a content of 1..2000
whitespace characters validates and the value handed onward for storage is
the trimmed string, here the empty string, below the documented 1-character
minimum. -/
theorem validatePostMessage_whitespace_content (body : PostBody) (s u c : String)
    (hbs : body.channel_id = some s) (hs1 : s ≠ "") (hs100 : s.length ≤ 100)
    (hbu : body.user_id = some u) (hu1 : u ≠ "") (hu100 : u.length ≤ 100)
    (hbc : body.content = some c) (hc1 : 1 ≤ c.length) (hc2000 : c.length ≤ 2000)
    (hws : ∀ ch ∈ c.data, isJsWhitespace ch = true)
    (hk : body.client_msg_id = none) :
    validatePostMessage body =
      PostValidation.ok ⟨jsTrim s, jsTrim u, "", optTrim body.consistency, none⟩ := by
  have hcne : c ≠ "" := by
    intro hc
    subst hc
    simp at hc1
  have hsl := length_pos_of_ne_empty hs1
  have hul := length_pos_of_ne_empty hu1
  have htc := jsTrim_all_whitespace hws
  unfold validatePostMessage
  rw [hbs, hbu, hbc, hk]
  simp [truthy, hs1, hu1, hcne, htc, optTrim]
  omega

/-- Witness for claim C9 at a three-space content. -/
theorem validatePostMessage_whitespace_content_witness :
    validatePostMessage ⟨some "c1", some "u", some "   ", none, none⟩ =
      PostValidation.ok ⟨jsTrim "c1", jsTrim "u", "", optTrim none, none⟩ :=
  validatePostMessage_whitespace_content _ "c1" "u" "   " rfl (by decide) (by decide)
    rfl (by decide) (by decide) rfl (by decide) (by decide) (by decide) rfl

/-- Claim C8: every validation error of the list operation (limit not a
number in 1..100, with 0 and 101 rejected and 1 and 100 accepted, both
cursors supplied, malformed identifier) is detected before any storage
call: an invalid query makes the handler answer badRequest and never reach
the storage read. -/
theorem listMessages_validation_before_storage :
    (∀ (channelId : String) (query : GetQuery) (envRead envWrite : Option String)
        (errs : List String),
        validateGetMessages query = GetValidation.invalid errs →
        isSuccess (getMessagesHandler channelId query envRead envWrite) = false) ∧
    validateGetMessages ⟨some "0", none, none, none⟩ =
      GetValidation.invalid ["limit must be a number between 1 and 100"] ∧
    validateGetMessages ⟨some "101", none, none, none⟩ =
      GetValidation.invalid ["limit must be a number between 1 and 100"] ∧
    validateGetMessages ⟨some "abc", none, none, none⟩ =
      GetValidation.invalid ["limit must be a number between 1 and 100"] ∧
    validateGetMessages ⟨some "1", none, none, none⟩ =
      GetValidation.ok ⟨1, none, none, none⟩ ∧
    validateGetMessages ⟨some "100", none, none, none⟩ =
      GetValidation.ok ⟨100, none, none, none⟩ ∧
    validateGetMessages ⟨none, some "550e8400-e29b-41d4-a716-446655440000",
        some "550e8400-e29b-41d4-a716-446655440001", none⟩ =
      GetValidation.invalid ["Cannot use both before and after parameters simultaneously"] ∧
    validateGetMessages ⟨none, some "not-a-uuid", none, none⟩ =
      GetValidation.invalid ["before parameter must be a valid UUID"] ∧
    validateGetMessages ⟨none, none, some "not-a-uuid", none⟩ =
      GetValidation.invalid ["after parameter must be a valid UUID"] := by
  refine ⟨?_, by decide, by decide, by decide, by decide, by decide, by decide, by decide,
    by decide⟩
  intro channelId query envRead envWrite errs hval
  unfold getMessagesHandler
  split
  · rfl
  · rw [hval]
    rfl

/-- Witness for claim C8: limit 0 is rejected with no storage call. -/
theorem listMessages_validation_before_storage_witness :
    isSuccess (getMessagesHandler "c1" ⟨some "0", none, none, none⟩ none none) = false :=
  listMessages_validation_before_storage.1 "c1" ⟨some "0", none, none, none⟩ none none
    ["limit must be a number between 1 and 100"] (by decide)

/-- Claim C6 counterexample: with read default QUORUM and write default
ALL, an unrecognized token on the list path is substituted by the write
default ALL (level 5), not the read default QUORUM (level 4), and the
warning names ALL. -/
theorem listMessages_read_default_cex :
    getMessagesHandler "c1" ⟨none, none, none, some "BOGUS"⟩ (some "QUORUM") (some "ALL") =
      GetHandlerResult.success ⟨"c1", 20, none, none, some 5⟩
        (some ("Invalid consistency level " ++ sq ++ "BOGUS" ++ sq ++
          ", using default " ++ sq ++ "ALL" ++ sq)) ∧
    validateConsistency (some "QUORUM") (some "ALL") = ⟨some 4, none⟩ ∧
    ¬ ((some 5 : Option Nat) = (validateConsistency (some "QUORUM") (some "ALL")).value) := by
  decide

/-- Claim C6 (amended): the two defaults are independent, but resolution
applies them differently than claimed: the list handler substitutes the
read-default env token only when the request token is absent, while an
unrecognized token falls back to the write default
(DEFAULT_WRITE_CONSISTENCY or ONE), whose name the warning reports next to
the rejected token. -/
theorem listMessages_consistency_resolution (channelId : String) (query : GetQuery)
    (envRead envWrite : Option String) (d : GetData)
    (h1 : 1 ≤ channelId.length) (h2 : channelId.length ≤ 100)
    (hval : validateGetMessages query = GetValidation.ok d) :
    getMessagesHandler channelId query envRead envWrite =
      GetHandlerResult.success
        ⟨channelId, d.limit, d.before, d.after,
          (validateConsistency (if truthy d.consistency then d.consistency else envRead)
            envWrite).value⟩
        (validateConsistency (if truthy d.consistency then d.consistency else envRead)
          envWrite).warning ∧
    (∀ tok : String, truthy (some tok) = true →
      ALLOWED_CONSISTENCIES.contains (jsToUpper tok) = false →
      (validateConsistency (some tok) envWrite).value =
        consistencies (jsToLower (defaultWriteName envWrite)) ∧
      (validateConsistency (some tok) envWrite).warning =
        some ("Invalid consistency level " ++ sq ++ tok ++ sq ++
          ", using default " ++ sq ++ defaultWriteName envWrite ++ sq)) := by
  constructor
  · unfold getMessagesHandler
    split
    · next h =>
        exfalso
        simp at h
        omega
    · rw [hval]
  · intro tok htr hnc
    have hnc2 : ¬ jsToUpper tok ∈ ALLOWED_CONSISTENCIES := by simpa using hnc
    unfold validateConsistency
    simp [htr, hnc2]

/-- Witness for the amended claim C6: an absent token resolves through
the read default QUORUM. -/
theorem listMessages_consistency_resolution_witness :
    getMessagesHandler "c1" ⟨none, none, none, none⟩ (some "QUORUM") (some "ALL") =
      GetHandlerResult.success ⟨"c1", 20, none, none, some 4⟩ none :=
  (listMessages_consistency_resolution "c1" ⟨none, none, none, none⟩ (some "QUORUM")
    (some "ALL") ⟨20, none, none, none⟩ (by decide) (by decide) (by decide)).1

/-- A next_before cursor is the id of some member of the page. -/
theorem nextBefore_mem {page : List Message} {b : Nat} (h : nextBefore page = some b) :
    ∃ m, m ∈ page ∧ m.message_id = b := by
  cases hgl : page.getLast? with
  | none => simp [nextBefore, hgl] at h
  | some m =>
    refine ⟨m, List.mem_of_getLast?_eq_some hgl, ?_⟩
    simp [nextBefore, hgl] at h
    exact h

/-- On a strictly descending partition, the rows strictly below the
next_before cursor of the first page are exactly the rows the page skipped. -/
theorem filter_lt_nextBefore :
    ∀ (rows : List Message) (limit : Nat) (b : Nat),
      DescIds rows → 1 ≤ limit → nextBefore (rows.take limit) = some b →
      rows.filter (fun m => decide (m.message_id < b)) = rows.drop limit := by
  intro rows
  induction rows with
  | nil =>
    intro limit b _ _ hb
    simp [nextBefore] at hb
  | cons x xs ih =>
    intro limit b hs hl hb
    obtain ⟨l, rfl⟩ : ∃ l, limit = l + 1 := ⟨limit - 1, by omega⟩
    rw [List.take_succ_cons] at hb
    rcases List.pairwise_cons.mp hs with ⟨hx, hxs⟩
    cases htl : xs.take l with
    | nil =>
      rw [htl] at hb
      have hbx : x.message_id = b := by
        simpa [nextBefore] using hb
      rcases List.take_eq_nil_iff.mp htl with rfl | rfl
      · rw [List.filter_cons]
        have hxf : (decide (x.message_id < b)) = false := by
          simp
          omega
        rw [hxf]
        simp only [Bool.false_eq_true, if_false, List.drop_succ_cons, List.drop_zero]
        refine List.filter_eq_self.mpr ?_
        intro m hm
        have := hx m hm
        simp
        omega
      · simp [List.filter_cons]
        omega
    | cons y t =>
      rw [htl] at hb
      have hb2 : nextBefore (xs.take l) = some b := by
        rw [htl]
        simpa [nextBefore] using hb
      have hl2 : 1 ≤ l := by
        by_contra h0
        have hl0 : l = 0 := by omega
        subst hl0
        simp at htl
      have ihx := ih l b hxs hl2 hb2
      obtain ⟨m, hm, hmb⟩ := nextBefore_mem hb2
      have hbx : b < x.message_id := by
        have := hx m (List.mem_of_mem_take hm)
        omega
      rw [List.filter_cons]
      have hxf : (decide (x.message_id < b)) = false := by
        simp
        omega
      rw [hxf]
      simp only [Bool.false_eq_true, if_false, List.drop_succ_cons]
      exact ihx

/-- Continuing pagination from a cursor is pagination of the filtered
suffix. -/
theorem paginateRows_cursor :
    ∀ (fuel : Nat) (rows : List Message) (limit : Nat) (b : Nat), DescIds rows →
      paginateRows fuel rows limit (some b) =
        paginateRows fuel (rows.filter (fun m => decide (m.message_id < b))) limit none := by
  intro fuel
  induction fuel with
  | zero => intros; rfl
  | succ f ih =>
    intro rows limit b hs
    have hfsub : DescIds (rows.filter (fun m => decide (m.message_id < b))) :=
      List.Pairwise.sublist (List.filter_sublist rows) hs
    simp only [paginateRows]
    rw [show pageOf rows limit (some b) =
      pageOf (rows.filter (fun m => decide (m.message_id < b))) limit none from rfl]
    cases hnb : nextBefore (pageOf (rows.filter (fun m => decide (m.message_id < b)))
        limit none) with
    | none => rfl
    | some b2 =>
      have htails : paginateRows f rows limit (some b2) =
          paginateRows f (rows.filter (fun m => decide (m.message_id < b))) limit (some b2) := by
        rw [ih rows limit b2 hs, ih _ limit b2 hfsub]
        rw [List.filter_filter]
        obtain ⟨m, hm, hmb⟩ := nextBefore_mem hnb
        have hmfl : m ∈ rows.filter (fun m => decide (m.message_id < b)) :=
          List.mem_of_mem_take hm
        have hb2b : b2 < b := by
          have := (List.mem_filter.mp hmfl).2
          simp at this
          omega
        have hcg : rows.filter (fun a => decide (a.message_id < b2)) =
            rows.filter (fun a => decide (a.message_id < b2) && decide (a.message_id < b)) := by
          refine List.filter_congr ?_
          intro a ha
          by_cases ha2 : a.message_id < b2
          · have hab : a.message_id < b := by omega
            simp [ha2, hab]
          · simp [ha2]
        rw [hcg]
      exact congrArg
        (fun t => pageOf (rows.filter (fun m => decide (m.message_id < b))) limit none :: t)
        htails

/-- With enough fuel, pagination of a strictly descending partition
concatenates back to the partition. -/
theorem paginateRows_flatten :
    ∀ (fuel : Nat) (rows : List Message) (limit : Nat),
      DescIds rows → 1 ≤ limit → rows.length < fuel →
      (paginateRows fuel rows limit none).flatten = rows := by
  intro fuel
  induction fuel with
  | zero =>
    intro rows limit _ _ h
    omega
  | succ f ih =>
    intro rows limit hs hl hlen
    simp only [paginateRows]
    cases hnb : nextBefore (pageOf rows limit none) with
    | none =>
      have hpage : rows.take limit = [] := by
        have hgl : (rows.take limit).getLast? = none := by
          have : (rows.take limit).getLast?.map (fun m => m.message_id) = none := hnb
          cases hgl2 : (rows.take limit).getLast? with
          | none => rfl
          | some m => rw [hgl2] at this; simp at this
        exact List.getLast?_eq_none_iff.mp hgl
      have hrows : rows = [] := by
        rcases List.take_eq_nil_iff.mp hpage with h | h
        · omega
        · exact h
      subst hrows
      rfl
    | some b =>
      have hne : rows ≠ [] := by
        intro h
        subst h
        simp [pageOf, nextBefore] at hnb
      have hpos : 1 ≤ rows.length := List.length_pos.mpr hne
      show (rows.take limit :: paginateRows f rows limit (some b)).flatten = rows
      rw [List.flatten_cons]
      rw [paginateRows_cursor f rows limit b hs]
      rw [filter_lt_nextBefore rows limit b hs hl hnb]
      rw [ih (rows.drop limit) limit
        (List.Pairwise.sublist (List.drop_sublist limit rows) hs) hl
        (by rw [List.length_drop]; omega)]
      exact List.take_append_drop limit rows

/-- The handler-level pagination loop equals the partition-level loop. -/
theorem paginate_eq_paginateRows :
    ∀ (fuel : Nat) (db : List Message) (channelId : String) (limit : Nat)
      (cursor : Option Nat),
      paginate fuel db channelId limit cursor =
        paginateRows fuel (clusteringDesc (db.filter (fun m => m.channel_id == channelId)))
          limit cursor := by
  intro fuel
  induction fuel with
  | zero => intros; rfl
  | succ f ih =>
    intro db channelId limit cursor
    have hpage : getMessages db channelId limit cursor none =
        pageOf (clusteringDesc (db.filter (fun m => m.channel_id == channelId)))
          limit cursor := by
      cases cursor <;> rfl
    simp only [paginate, paginateRows]
    rw [hpage]
    cases hnb : nextBefore (pageOf
        (clusteringDesc (db.filter (fun m => m.channel_id == channelId))) limit cursor) with
    | none => rfl
    | some b =>
      exact congrArg
        (fun t => pageOf (clusteringDesc (db.filter (fun m => m.channel_id == channelId)))
          limit cursor :: t)
        (ih db channelId limit (some b))

/-- Claim C2: for a fixed channel content and a limit in 1..100,
paginating with next_before until it is null yields pages whose
concatenation is exactly the clustering-ordered channel listing — a
permutation of all K channel messages, strictly descending in message_id —
and the pages are pairwise disjoint, no id repeated across pages. -/
theorem listMessages_pagination (db : List Message) (channelId : String) (L : Nat)
    (hL1 : 1 ≤ L) (_hL2 : L ≤ 100)
    (hids : ((db.filter (fun m => m.channel_id == channelId)).map
      (fun m => m.message_id)).Nodup) :
    (paginate ((db.filter (fun m => m.channel_id == channelId)).length + 1) db channelId L
        none).flatten =
      clusteringDesc (db.filter (fun m => m.channel_id == channelId)) ∧
    List.Perm
      ((paginate ((db.filter (fun m => m.channel_id == channelId)).length + 1) db channelId L
        none).flatten)
      (db.filter (fun m => m.channel_id == channelId)) ∧
    ((paginate ((db.filter (fun m => m.channel_id == channelId)).length + 1) db channelId L
        none).flatten).Pairwise (fun a b => b.message_id < a.message_id) ∧
    (paginate ((db.filter (fun m => m.channel_id == channelId)).length + 1) db channelId L
        none).Pairwise (fun p q => ∀ a ∈ p, ∀ b ∈ q, a.message_id ≠ b.message_id) := by
  have hdesc : DescIds (clusteringDesc (db.filter (fun m => m.channel_id == channelId))) :=
    descIds_clusteringDesc hids
  have hflat : (paginate ((db.filter (fun m => m.channel_id == channelId)).length + 1) db
      channelId L none).flatten =
      clusteringDesc (db.filter (fun m => m.channel_id == channelId)) := by
    rw [paginate_eq_paginateRows]
    refine paginateRows_flatten _ _ _ hdesc hL1 ?_
    rw [(clusteringDesc_perm (db.filter (fun m => m.channel_id == channelId))).length_eq]
    omega
  refine ⟨hflat, ?_, ?_, ?_⟩
  · rw [hflat]
    exact clusteringDesc_perm _
  · rw [hflat]
    exact hdesc
  · have hfp : ((paginate ((db.filter (fun m => m.channel_id == channelId)).length + 1) db
        channelId L none).flatten).Pairwise (fun a b => b.message_id < a.message_id) := by
      rw [hflat]
      exact hdesc
    exact ((List.pairwise_flatten.mp hfp).2).imp
      (fun h a ha b hb => Nat.ne_of_lt' (h a ha b hb))

/-- Witness for claim C2: a three-message channel paged with limit 2. -/
theorem listMessages_pagination_witness :
    (paginate ((dbC2.filter (fun m => m.channel_id == "c")).length + 1) dbC2 "c" 2
        none).flatten =
      clusteringDesc (dbC2.filter (fun m => m.channel_id == "c")) :=
  (listMessages_pagination dbC2 "c" 2 (by decide) (by decide) (by decide)).1

/-- Claim C4 counterexample: on a channel with ids 1..5, the after=1 read
with limit 2 returns the newest rows 5 and 4, not the nearest-to-cursor
subset 3 and 2 rendered newest-first that the spec words describe. -/
theorem getMessages_after_nearest_cex :
    getMessages dbC4 "c" 2 none (some 1) =
      [⟨"c", 5, "u", "m5", 5⟩, ⟨"c", 4, "u", "m4", 4⟩] ∧
    specAfterRead dbC4 "c" 2 1 =
      [⟨"c", 3, "u", "m3", 3⟩, ⟨"c", 2, "u", "m2", 2⟩] ∧
    getMessages dbC4 "c" 2 none (some 1) ≠ specAfterRead dbC4 "c" 2 1 := by decide

/-- Claim C4 (amended): the after=X read returns up to limit entries with
message_id greater than X, in descending order — but they are the newest
such entries (the prefix of the descending listing), not the
nearest-to-X-and-ascending subset: any qualifying row left out is older
than every returned row. -/
theorem getMessages_after_newest (db : List Message) (channelId : String) (L a : Nat)
    (hids : ((db.filter (fun m => m.channel_id == channelId)).map
      (fun m => m.message_id)).Nodup) :
    getMessages db channelId L none (some a) =
      ((clusteringDesc (db.filter (fun m => m.channel_id == channelId))).filter
        (fun m => decide (a < m.message_id))).take L ∧
    (getMessages db channelId L none (some a)).Pairwise
      (fun x y => y.message_id < x.message_id) ∧
    (∀ m ∈ getMessages db channelId L none (some a), a < m.message_id) ∧
    (getMessages db channelId L none (some a)).length ≤ L ∧
    (∀ x ∈ clusteringDesc (db.filter (fun m => m.channel_id == channelId)),
      a < x.message_id → x ∉ getMessages db channelId L none (some a) →
      ∀ y ∈ getMessages db channelId L none (some a), x.message_id < y.message_id) := by
  have hdesc : DescIds (clusteringDesc (db.filter (fun m => m.channel_id == channelId))) :=
    descIds_clusteringDesc hids
  have hdef : getMessages db channelId L none (some a) =
      ((clusteringDesc (db.filter (fun m => m.channel_id == channelId))).filter
        (fun m => decide (a < m.message_id))).take L := rfl
  have hfd : DescIds ((clusteringDesc (db.filter (fun m => m.channel_id == channelId))).filter
      (fun m => decide (a < m.message_id))) :=
    List.Pairwise.sublist (List.filter_sublist _) hdesc
  refine ⟨hdef, ?_, ?_, ?_, ?_⟩
  · rw [hdef]
    exact List.Pairwise.sublist (List.take_sublist _ _) hfd
  · intro m hm
    rw [hdef] at hm
    have := (List.mem_filter.mp (List.mem_of_mem_take hm)).2
    simpa using this
  · rw [hdef]
    exact List.length_take_le _ _
  · intro x hx hax hnotin y hy
    rw [hdef] at hnotin hy
    have hxfl : x ∈ (clusteringDesc (db.filter (fun m => m.channel_id == channelId))).filter
        (fun m => decide (a < m.message_id)) :=
      List.mem_filter.mpr ⟨hx, by simpa using hax⟩
    have hx2 : x ∈ ((clusteringDesc (db.filter (fun m => m.channel_id == channelId))).filter
          (fun m => decide (a < m.message_id))).take L ++
        ((clusteringDesc (db.filter (fun m => m.channel_id == channelId))).filter
          (fun m => decide (a < m.message_id))).drop L := by
      rw [List.take_append_drop]
      exact hxfl
    have hxdrop : x ∈ ((clusteringDesc (db.filter (fun m => m.channel_id == channelId))).filter
        (fun m => decide (a < m.message_id))).drop L := by
      rcases List.mem_append.mp hx2 with h | h
      · exact absurd h hnotin
      · exact h
    have hpw := hfd
    rw [← List.take_append_drop L ((clusteringDesc (db.filter
      (fun m => m.channel_id == channelId))).filter (fun m => decide (a < m.message_id)))]
      at hpw
    exact (List.pairwise_append.mp hpw).2.2 y hy x hxdrop

/-- Witness for the amended claim C4 on the concrete five-message
channel. -/
theorem getMessages_after_newest_witness :
    getMessages dbC4 "c" 2 none (some 1) =
      ((clusteringDesc (dbC4.filter (fun m => m.channel_id == "c"))).filter
        (fun m => decide (1 < m.message_id))).take 2 :=
  (getMessages_after_newest dbC4 "c" 2 1 (by decide)).1

/-- Each generated id strictly exceeds the recorded previous id. -/
theorem nextId_gt (clock : Nat) (s : GenState) :
    idLt (s.lastTime, s.lastTicks) (nextId clock s).1 := by
  unfold nextId idLt
  split
  · next h => exact Or.inl h
  · exact Or.inr ⟨rfl, Nat.lt_succ_self _⟩

/-- The generator state after a call records the id just issued. -/
theorem nextId_records (clock : Nat) (s : GenState) :
    ((nextId clock s).2.lastTime, (nextId clock s).2.lastTicks) = (nextId clock s).1 := by
  unfold nextId
  split <;> rfl

/-- The recorded pair followed by a run of issued ids is an idLt chain. -/
theorem genRun_chain (clocks : List Nat) (s : GenState) :
    List.Chain' idLt ((s.lastTime, s.lastTicks) :: genRun s clocks) := by
  induction clocks generalizing s with
  | nil => exact List.chain'_singleton _
  | cons c rest ih =>
    show List.Chain' idLt
      ((s.lastTime, s.lastTicks) :: (nextId c s).1 :: genRun (nextId c s).2 rest)
    rw [List.chain'_cons]
    refine ⟨nextId_gt c s, ?_⟩
    have h := ih (nextId c s).2
    rw [nextId_records c s] at h
    exact h

/-- Claim C7: for sequential calls of the Identifier Generator within one
process, each id is strictly greater than its predecessor under the id
total order and the embedded timestamps never decrease, even when several
calls fall in one clock tick (modelled from the spec, section 4.1). -/
theorem nowId_monotone (clocks : List Nat) (s0 : GenState) :
    List.Chain' idLt (genRun s0 clocks) ∧
    List.Chain' (fun a b => idTimestamp a ≤ idTimestamp b) (genRun s0 clocks) := by
  have h1 : List.Chain' idLt (genRun s0 clocks) := (genRun_chain clocks s0).tail
  refine ⟨h1, ?_⟩
  refine List.Chain'.imp ?_ h1
  intro a b hab
  unfold idLt at hab
  unfold idTimestamp
  omega

end MiniDiscord
